import Mathlib

/-!
Verification of the `LogChannel` conditional-logging utility.

The repository holds two implementations of the same module:
`src/logchannel.ts` (embedded below in namespace `Logchannel`) and
`src/unnamed/part_000` (embedded in namespace `Part000`, which exports the
same object through an `ILogChannel` interface).  Each implementation keeps
one piece of mutable state, `activeChannels : string[]`, initialised from the
`LOG_CHANNELS` environment variable, replaced wholesale by `setChannel`, and
consulted by `log` / `error` / `debug` before emitting a prefixed record to a
console sink.

The embedding models:
  * JavaScript `String.prototype.trim`   as `jsTrim` (drop the JS whitespace
    set from both ends);
  * JavaScript `String.prototype.split(',')` as `splitOnComma`;
  * JavaScript `String.prototype.toUpperCase` as `jsToUpperCase`
    (character-wise upper-casing);
  * `Deno.env.get("LOG_CHANNELS")` as an `Except Unit (Option String)` input:
    `.error ()` models the call throwing (no permission / unavailable),
    `.ok none` models an unset variable, `.ok (some v)` models value `v`;
  * a `console.log` / `console.error` / `console.debug` call as an emitted
    `Record` tagged with its `Sink`.
-/

/-- The WhiteSpace and LineTerminator characters recognised by JavaScript
`String.prototype.trim`: TAB, LF, VT, FF, CR, SP, NBSP, the Unicode `Zs`
space separators, LS, PS and ZWNBSP. -/
def isJsWhitespace (c : Char) : Bool :=
  c = ' ' || c = '\t' || c = '\n' || c = '\r' || c = '\x0b' || c = '\x0c' ||
  c.val = 0x00A0 || c.val = 0x1680 ||
  (0x2000 ≤ c.val && c.val ≤ 0x200A) ||
  c.val = 0x2028 || c.val = 0x2029 || c.val = 0x202F || c.val = 0x205F ||
  c.val = 0x3000 || c.val = 0xFEFF

/-- JavaScript `s.trim()`: remove JS whitespace from the start and the end of
the string. -/
def jsTrim (s : String) : String :=
  ⟨List.rdropWhile isJsWhitespace (s.data.dropWhile isJsWhitespace)⟩

/-- JavaScript `s.split(',')` on the character list: splitting at every comma,
keeping empty pieces, with `[""]` for the empty string. -/
def splitOnCommaList : List Char → List (List Char)
  | [] => [[]]
  | c :: cs =>
    if c = ',' then [] :: splitOnCommaList cs
    else
      match splitOnCommaList cs with
      | [] => [[c]]
      | piece :: pieces => (c :: piece) :: pieces

/-- JavaScript `s.split(',')`. -/
def splitOnComma (s : String) : List String :=
  (splitOnCommaList s.data).map (fun cs => ⟨cs⟩)

/-- JavaScript `s.toUpperCase()`, modelled character-wise. -/
def jsToUpperCase (s : String) : String :=
  ⟨s.data.map Char.toUpper⟩

/-- The result of `Deno.env.get("LOG_CHANNELS")`: the call may throw
(`.error ()`), return `undefined` (`.ok none`) or return a string value. -/
abbrev EnvRead := Except Unit (Option String)

/-- The argument of `setChannel`: a single string or an array of strings. -/
inductive ChannelsArg where
  | single (s : String)
  | array (l : List String)
deriving DecidableEq, Repr

/-- The severity tag threaded into `_processLogEvent` (`logType`). -/
inductive LogType where
  | ERROR
  | DEBUG
deriving DecidableEq, Repr

/-- The string interpolated into the prefix for a `logType`. -/
def LogType.str : LogType → String
  | .ERROR => "ERROR"
  | .DEBUG => "DEBUG"

/-- The three console sinks: `console.log`, `console.error`, `console.debug`. -/
inductive Sink where
  | out
  | err
  | dbg
deriving DecidableEq, Repr

/-- One emitted console record: the sink written to, the prefix string, and
the message values in order.  Message values are opaque (`α`). -/
structure Record (α : Type) where
  sink : Sink
  pfx : String
  msgs : List α
deriving DecidableEq, Repr

namespace Logchannel

/-- `initChannels` from src/logchannel.ts: read `LOG_CHANNELS`; when the read
throws, or the variable is unset or falsy/blank, use `["default"]`; otherwise
split on commas, trim each piece, drop empty pieces, and fall back to
`["default"]` when nothing remains. -/
def initChannels (envRead : EnvRead) : List String :=
  match envRead with
  | .error _ => ["default"]
  | .ok none => ["default"]
  | .ok (some v) =>
    if v ≠ "" ∧ jsTrim v ≠ "" then
      let channels := ((splitOnComma v).map jsTrim).filter (fun ch => ch ≠ "")
      if channels.length = 0 then ["default"] else channels
    else ["default"]

/-- `setChannel` from src/logchannel.ts: an array is trimmed element-wise with
empty results dropped; a single string is trimmed and becomes a singleton (or
the empty set when blank).  The prior set (first argument) is overwritten
without being read. -/
def setChannel (_activeChannels : List String) : ChannelsArg → List String
  | .array l => (l.map jsTrim).filter (fun ch => ch ≠ "")
  | .single s =>
    let trimmedChannel := jsTrim s
    if trimmedChannel ≠ "" then [trimmedChannel] else []

/-- The prefix computed by `_processLogEvent`:
`[CHANNEL]`, `[CHANNEL:ERROR]` or `[CHANNEL:DEBUG]`. -/
def eventPfx (channel : String) : Option LogType → String
  | some t => "[" ++ jsToUpperCase channel ++ ":" ++ t.str ++ "]"
  | none => "[" ++ jsToUpperCase channel ++ "]"

/-- `_processLogEvent` from src/logchannel.ts: emit one record on the given
sink exactly when `messages` is non-empty and `channel` occurs literally in
`activeChannels`; otherwise emit nothing. -/
def _processLogEvent {α : Type} (activeChannels : List String) (outputFn : Sink)
    (channel : String) (messages : List α) (logType : Option LogType) :
    Option (Record α) :=
  if 0 < messages.length ∧ activeChannels.contains channel then
    some ⟨outputFn, eventPfx channel logType, messages⟩
  else
    none

/-- `log` from src/logchannel.ts: `_processLogEvent(console.log, ...)` with no
`logType`. -/
def log {α : Type} (activeChannels : List String) (channel : String)
    (messages : List α) : Option (Record α) :=
  _processLogEvent activeChannels Sink.out channel messages none

/-- `error` from src/logchannel.ts: `_processLogEvent(console.error, ..., "ERROR")`. -/
def error {α : Type} (activeChannels : List String) (channel : String)
    (messages : List α) : Option (Record α) :=
  _processLogEvent activeChannels Sink.err channel messages (some LogType.ERROR)

/-- `debug` from src/logchannel.ts: `_processLogEvent(console.debug, ..., "DEBUG")`. -/
def debug {α : Type} (activeChannels : List String) (channel : String)
    (messages : List α) : Option (Record α) :=
  _processLogEvent activeChannels Sink.dbg channel messages (some LogType.DEBUG)

/-- `getActiveChannels` from src/logchannel.ts, at the level of contents: the
returned array holds exactly the elements of `activeChannels` (the aliasing
behaviour of the copy `[...activeChannels]` is modelled by
`getActiveChannelsH` on the explicit heap below). -/
def getActiveChannels (activeChannels : List String) : List String :=
  activeChannels

end Logchannel

namespace Part000

/-- `initChannels` from src/unnamed/part_000 (same body as in
src/logchannel.ts). -/
def initChannels (envRead : EnvRead) : List String :=
  match envRead with
  | .error _ => ["default"]
  | .ok none => ["default"]
  | .ok (some v) =>
    if v ≠ "" ∧ jsTrim v ≠ "" then
      let channels := ((splitOnComma v).map jsTrim).filter (fun ch => ch ≠ "")
      if channels.length = 0 then ["default"] else channels
    else ["default"]

/-- `setChannel` from src/unnamed/part_000. -/
def setChannel (_activeChannels : List String) : ChannelsArg → List String
  | .array l => (l.map jsTrim).filter (fun ch => ch ≠ "")
  | .single s =>
    let trimmedChannel := jsTrim s
    if trimmedChannel ≠ "" then [trimmedChannel] else []

/-- The prefix computed by `_processLogEvent` of src/unnamed/part_000. -/
def eventPfx (channel : String) : Option LogType → String
  | some t => "[" ++ jsToUpperCase channel ++ ":" ++ t.str ++ "]"
  | none => "[" ++ jsToUpperCase channel ++ "]"

/-- `_processLogEvent` from src/unnamed/part_000. -/
def _processLogEvent {α : Type} (activeChannels : List String) (outputFn : Sink)
    (channel : String) (messages : List α) (logType : Option LogType) :
    Option (Record α) :=
  if 0 < messages.length ∧ activeChannels.contains channel then
    some ⟨outputFn, eventPfx channel logType, messages⟩
  else
    none

/-- `log` from src/unnamed/part_000. -/
def log {α : Type} (activeChannels : List String) (channel : String)
    (messages : List α) : Option (Record α) :=
  _processLogEvent activeChannels Sink.out channel messages none

/-- `error` from src/unnamed/part_000. -/
def error {α : Type} (activeChannels : List String) (channel : String)
    (messages : List α) : Option (Record α) :=
  _processLogEvent activeChannels Sink.err channel messages (some LogType.ERROR)

/-- `debug` from src/unnamed/part_000. -/
def debug {α : Type} (activeChannels : List String) (channel : String)
    (messages : List α) : Option (Record α) :=
  _processLogEvent activeChannels Sink.dbg channel messages (some LogType.DEBUG)

/-- `getActiveChannels` from src/unnamed/part_000, at the level of contents. -/
def getActiveChannels (activeChannels : List String) : List String :=
  activeChannels

end Part000

/-- One call to the public API surface of the module. -/
inductive Call (α : Type) where
  | setChannel (arg : ChannelsArg)
  | log (channel : String) (messages : List α)
  | error (channel : String) (messages : List α)
  | debug (channel : String) (messages : List α)
  | getActive
deriving DecidableEq, Repr

/-- The observable outcome of one call: nothing, an emitted console record,
or the array returned by `getActiveChannels`. -/
inductive Out (α : Type) where
  | nothing
  | emitted (r : Record α)
  | channels (cs : List String)
deriving DecidableEq, Repr

/-- View an optional emission as an observable outcome. -/
def outOfEmission {α : Type} : Option (Record α) → Out α
  | none => Out.nothing
  | some r => Out.emitted r

/-- One step of src/logchannel.ts: the new `activeChannels` state and the
observable outcome of the call. -/
def Logchannel.step {α : Type} (s : List String) : Call α → List String × Out α
  | .setChannel arg => (Logchannel.setChannel s arg, Out.nothing)
  | .log ch ms => (s, outOfEmission (Logchannel.log s ch ms))
  | .error ch ms => (s, outOfEmission (Logchannel.error s ch ms))
  | .debug ch ms => (s, outOfEmission (Logchannel.debug s ch ms))
  | .getActive => (s, Out.channels (Logchannel.getActiveChannels s))

/-- Run a sequence of calls of src/logchannel.ts from a given state. -/
def Logchannel.runFrom {α : Type} (s : List String) :
    List (Call α) → List String × List (Out α)
  | [] => (s, [])
  | c :: cs =>
    let step1 := Logchannel.step s c
    let rest := Logchannel.runFrom step1.1 cs
    (rest.1, step1.2 :: rest.2)

/-- Run src/logchannel.ts from module load (initialisation from the
environment) through a sequence of calls. -/
def Logchannel.run {α : Type} (envRead : EnvRead) (calls : List (Call α)) :
    List String × List (Out α) :=
  Logchannel.runFrom (Logchannel.initChannels envRead) calls

/-- One step of src/unnamed/part_000. -/
def Part000.step {α : Type} (s : List String) : Call α → List String × Out α
  | .setChannel arg => (Part000.setChannel s arg, Out.nothing)
  | .log ch ms => (s, outOfEmission (Part000.log s ch ms))
  | .error ch ms => (s, outOfEmission (Part000.error s ch ms))
  | .debug ch ms => (s, outOfEmission (Part000.debug s ch ms))
  | .getActive => (s, Out.channels (Part000.getActiveChannels s))

/-- Run a sequence of calls of src/unnamed/part_000 from a given state. -/
def Part000.runFrom {α : Type} (s : List String) :
    List (Call α) → List String × List (Out α)
  | [] => (s, [])
  | c :: cs =>
    let step1 := Part000.step s c
    let rest := Part000.runFrom step1.1 cs
    (rest.1, step1.2 :: rest.2)

/-- Run src/unnamed/part_000 from module load through a sequence of calls. -/
def Part000.run {α : Type} (envRead : EnvRead) (calls : List (Call α)) :
    List String × List (Out α) :=
  Part000.runFrom (Part000.initChannels envRead) calls

/-- The `activeChannels` states reachable in src/logchannel.ts: module-load
initialisation followed by any number of `setChannel` calls (no other
operation assigns to `activeChannels`). -/
inductive Reachable : List String → Prop where
  | init (envRead : EnvRead) : Reachable (Logchannel.initChannels envRead)
  | set (prior : List String) (arg : ChannelsArg) (h : Reachable prior) :
      Reachable (Logchannel.setChannel prior arg)

/-- A heap of JavaScript arrays: cell contents indexed by reference, plus the
next fresh reference.  Used to model array identity for `getActiveChannels`. -/
structure Heap where
  cells : Nat → List String
  next : Nat

/-- Read the array behind a reference. -/
def Heap.read (h : Heap) (r : Nat) : List String := h.cells r

/-- Mutate the array behind a reference in place. -/
def Heap.write (h : Heap) (r : Nat) (v : List String) : Heap :=
  ⟨fun i => if i = r then v else h.cells i, h.next⟩

/-- Allocate a fresh array holding `v`, returning the new heap and the fresh
reference. -/
def Heap.alloc (h : Heap) (v : List String) : Heap × Nat :=
  (⟨fun i => if i = h.next then v else h.cells i, h.next + 1⟩, h.next)

/-- The module state with array identity made explicit: the heap and the
reference currently held by the `activeChannels` variable. -/
structure GateState where
  heap : Heap
  activeRef : Nat

/-- `getActiveChannels` from src/logchannel.ts on the explicit heap: the
spread `[...activeChannels]` allocates a fresh array holding a copy of the
current contents and returns its reference. -/
def Logchannel.getActiveChannelsH (st : GateState) : GateState × Nat :=
  let allocation := st.heap.alloc (st.heap.read st.activeRef)
  (⟨allocation.1, st.activeRef⟩, allocation.2)

/-- Trimming both ends of a character list is idempotent. -/
theorem trimList_idem (p : Char → Bool) (l : List Char) :
    List.rdropWhile p ((List.rdropWhile p (l.dropWhile p)).dropWhile p) =
    List.rdropWhile p (l.dropWhile p) := by
  have hself : (List.rdropWhile p (l.dropWhile p)).dropWhile p =
      List.rdropWhile p (l.dropWhile p) := by
    rw [List.dropWhile_eq_self_iff]
    intro hl
    have hpre : List.rdropWhile p (l.dropWhile p) <+: l.dropWhile p :=
      List.rdropWhile_prefix p (l.dropWhile p)
    have hld : 0 < (l.dropWhile p).length := lt_of_lt_of_le hl hpre.length_le
    have h0 : (l.dropWhile p).get ⟨0, hld⟩ =
        (List.rdropWhile p (l.dropWhile p)).get ⟨0, hl⟩ := by
      simp only [List.get_eq_getElem]
      exact (hpre.getElem hl).symm
    have hnot := List.dropWhile_get_zero_not p l hld
    rw [h0] at hnot
    exact hnot
  rw [hself, List.rdropWhile_idempotent]

/-- `jsTrim` is idempotent. -/
theorem jsTrim_idem (s : String) : jsTrim (jsTrim s) = jsTrim s :=
  congrArg String.mk (trimList_idem isJsWhitespace s.data)

/-- Elements surviving the trim-and-drop pipeline are trimmed and non-empty. -/
theorem mem_trimFilter {l : List String} {c : String}
    (h : c ∈ (l.map jsTrim).filter (fun ch => ch ≠ "")) :
    jsTrim c = c ∧ c ≠ "" := by
  rw [List.mem_filter] at h
  obtain ⟨hmem, hne⟩ := h
  obtain ⟨x, _, rfl⟩ := List.mem_map.mp hmem
  exact ⟨jsTrim_idem x, by simpa using hne⟩

/-- Every element of a reachable `activeChannels` state is its own trimmed
form and non-empty. -/
theorem reachable_invariant {s : List String} (h : Reachable s) :
    ∀ c ∈ s, jsTrim c = c ∧ c ≠ "" := by
  induction h with
  | init envRead =>
    intro c hc
    match envRead with
    | .error _ =>
      simp only [Logchannel.initChannels, List.mem_singleton] at hc
      subst hc
      exact ⟨by decide, by decide⟩
    | .ok none =>
      simp only [Logchannel.initChannels, List.mem_singleton] at hc
      subst hc
      exact ⟨by decide, by decide⟩
    | .ok (some v) =>
      simp only [Logchannel.initChannels] at hc
      split at hc
      · split at hc
        · simp only [List.mem_singleton] at hc
          subst hc
          exact ⟨by decide, by decide⟩
        · exact mem_trimFilter hc
      · simp only [List.mem_singleton] at hc
        subst hc
        exact ⟨by decide, by decide⟩
  | set prior arg hr ih =>
    intro c hc
    match arg with
    | .array l => exact mem_trimFilter hc
    | .single str =>
      simp only [Logchannel.setChannel] at hc
      split at hc
      · simp only [List.mem_singleton] at hc
        subst hc
        exact ⟨jsTrim_idem str, by assumption⟩
      · simp at hc

/-- Claim C1: for every active set and every `log` / `error` / `debug` call,
a record is emitted if and only if the message list is non-empty and the
channel string is literally (case-sensitively, untrimmed) an element of the
active set; in particular a channel argument carrying extra whitespace never
fires against an active set holding only its trimmed form. -/
theorem C1_emission_iff {α : Type} (active : List String) (ch : String)
    (ms : List α) :
    ((Logchannel.log active ch ms).isSome = true ↔ ms ≠ [] ∧ ch ∈ active) ∧
    ((Logchannel.error active ch ms).isSome = true ↔ ms ≠ [] ∧ ch ∈ active) ∧
    ((Logchannel.debug active ch ms).isSome = true ↔ ms ≠ [] ∧ ch ∈ active) ∧
    (ch ≠ jsTrim ch → active = [jsTrim ch] →
      Logchannel.log active ch ms = none ∧
      Logchannel.error active ch ms = none ∧
      Logchannel.debug active ch ms = none) := by
  have key : ∀ (sink : Sink) (lt : Option LogType),
      (Logchannel._processLogEvent active sink ch ms lt).isSome = true ↔
        (ms ≠ [] ∧ ch ∈ active) := by
    intro sink lt
    unfold Logchannel._processLogEvent
    split
    · next hcond =>
      simp only [Option.isSome_some, true_iff]
      exact ⟨List.ne_nil_of_length_pos hcond.1, List.elem_iff.mp hcond.2⟩
    · next hcond =>
      simp only [Option.isSome_none, Bool.false_eq_true, false_iff]
      intro hcontra
      exact hcond ⟨List.length_pos.mpr hcontra.1, List.elem_iff.mpr hcontra.2⟩
  refine ⟨key _ _, key _ _, key _ _, ?_⟩
  intro hne hact
  have hmem : ch ∉ active := by
    rw [hact, List.mem_singleton]
    exact hne
  have hno : ∀ (sink : Sink) (lt : Option LogType),
      Logchannel._processLogEvent active sink ch ms lt = none := by
    intro sink lt
    unfold Logchannel._processLogEvent
    rw [if_neg]
    intro hcontra
    exact hmem (List.elem_iff.mp hcontra.2)
  exact ⟨hno _ _, hno _ _, hno _ _⟩

/-- Witness for C1 at a concrete input: the channel `" a"` carries leading
whitespace, the active set holds only the trimmed form `"a"`, so nothing is
emitted. -/
theorem C1_witness :
    Logchannel.log ["a"] " a" ([1] : List Nat) = none ∧
    Logchannel.error ["a"] " a" ([1] : List Nat) = none ∧
    Logchannel.debug ["a"] " a" ([1] : List Nat) = none :=
  (C1_emission_iff ["a"] " a" [1]).2.2.2 (by decide) (by decide)

/-- Claim C2: `setChannel` with an array trims every element and drops those
empty after trimming (order- and duplicate-preserving, here phrased as a
`filterMap`); with a single string it trims and yields a singleton or the
empty set; in both cases the result never depends on the prior set (full
replace), and the spec's P4 scenario yields exactly `["z"]`. -/
theorem C2_setChannel_spec :
    (∀ (prior l : List String),
      Logchannel.setChannel prior (ChannelsArg.array l) =
        l.filterMap (fun s => if jsTrim s = "" then none else some (jsTrim s))) ∧
    (∀ (prior : List String) (s : String),
      Logchannel.setChannel prior (ChannelsArg.single s) =
        (if jsTrim s = "" then [] else [jsTrim s])) ∧
    (∀ (p1 p2 : List String) (arg : ChannelsArg),
      Logchannel.setChannel p1 arg = Logchannel.setChannel p2 arg) ∧
    Logchannel.setChannel
      (Logchannel.setChannel ["default"] (ChannelsArg.array ["x", "y"]))
      (ChannelsArg.single "z") = ["z"] := by
  refine ⟨?_, ?_, ?_, by decide⟩
  · intro prior l
    induction l with
    | nil => rfl
    | cons x xs ih =>
      show ((x :: xs).map jsTrim).filter (fun ch => ch ≠ "") = _
      have ih2 : (xs.map jsTrim).filter (fun ch => ch ≠ "") =
          xs.filterMap (fun s => if jsTrim s = "" then none else some (jsTrim s)) := ih
      simp only [List.map_cons, List.filter_cons, List.filterMap_cons]
      by_cases hx : jsTrim x = ""
      · simp only [ne_eq, decide_not] at ih2 ⊢
        simp [hx, ih2]
      · simp only [ne_eq, decide_not] at ih2 ⊢
        simp [hx, ih2]
  · intro prior s
    simp only [Logchannel.setChannel]
    by_cases hs : jsTrim s = ""
    · simp [hs]
    · simp [hs]
  · intro p1 p2 arg
    cases arg <;> rfl

/-- Counterexample to claim C3 as stated: the value `" , "` is non-empty
after trimming, yet initialisation yields `["default"]` rather than the
(empty) split-trim-drop result. -/
theorem C3_counterexample :
    jsTrim " , " ≠ "" ∧
    ((splitOnComma " , ").map jsTrim).filter (fun ch => ch ≠ "") = [] ∧
    Logchannel.initChannels (Except.ok (some " , ")) = ["default"] ∧
    Logchannel.initChannels (Except.ok (some " , ")) ≠
      ((splitOnComma " , ").map jsTrim).filter (fun ch => ch ≠ "") :=
  ⟨by decide, by decide, by decide, by decide⟩

/-- Claim C3 amended: when `LOG_CHANNELS` is set, non-empty after trimming,
AND the comma-split, trimmed, empties-dropped sequence is non-empty, the
active set becomes exactly that sequence (otherwise the code falls back to
`["default"]`); the example `"a, b ,c"` yields exactly `["a","b","c"]`. -/
theorem C3_env_parse (v : String) (h1 : jsTrim v ≠ "")
    (h2 : ((splitOnComma v).map jsTrim).filter (fun ch => ch ≠ "") ≠ []) :
    Logchannel.initChannels (Except.ok (some v)) =
      ((splitOnComma v).map jsTrim).filter (fun ch => ch ≠ "") ∧
    Logchannel.initChannels (Except.ok (some "a, b ,c")) = ["a", "b", "c"] := by
  refine ⟨?_, by decide⟩
  have hv : v ≠ "" := by
    intro hcontra
    subst hcontra
    exact h1 (by decide)
  show (if v ≠ "" ∧ jsTrim v ≠ "" then _ else _) = _
  rw [if_pos ⟨hv, h1⟩]
  show (if (((splitOnComma v).map jsTrim).filter (fun ch => ch ≠ "")).length = 0
      then ["default"]
      else ((splitOnComma v).map jsTrim).filter (fun ch => ch ≠ "")) = _
  rw [if_neg (fun hlen => h2 (List.length_eq_zero.mp hlen))]

/-- Witness for C3 (amended) at the spec's own example value. -/
theorem C3_witness :
    Logchannel.initChannels (Except.ok (some "a, b ,c")) =
      ((splitOnComma "a, b ,c").map jsTrim).filter (fun ch => ch ≠ "") :=
  (C3_env_parse "a, b ,c" (by decide) (by decide)).1

/-- Claim C4: initialisation is total and lands on `["default"]` in every
degenerate case — the environment read throws, the variable is unset, the
value trims to the empty string, or comma-splitting plus trimming and
dropping empties leaves nothing. -/
theorem C4_default_fallback :
    (∀ e : Unit, Logchannel.initChannels (Except.error e) = ["default"]) ∧
    Logchannel.initChannels (Except.ok none) = ["default"] ∧
    (∀ v : String, jsTrim v = "" →
      Logchannel.initChannels (Except.ok (some v)) = ["default"]) ∧
    (∀ v : String,
      ((splitOnComma v).map jsTrim).filter (fun ch => ch ≠ "") = [] →
      Logchannel.initChannels (Except.ok (some v)) = ["default"]) := by
  refine ⟨fun e => rfl, rfl, ?_, ?_⟩
  · intro v hv
    show (if v ≠ "" ∧ jsTrim v ≠ "" then _ else _) = _
    rw [if_neg (fun hcontra => hcontra.2 hv)]
  · intro v hv
    by_cases hc : v ≠ "" ∧ jsTrim v ≠ ""
    · show (if v ≠ "" ∧ jsTrim v ≠ "" then _ else _) = _
      rw [if_pos hc]
      show (if (((splitOnComma v).map jsTrim).filter (fun ch => ch ≠ "")).length = 0
          then ["default"]
          else ((splitOnComma v).map jsTrim).filter (fun ch => ch ≠ "")) = _
      rw [if_pos (by rw [hv]; rfl)]
    · show (if v ≠ "" ∧ jsTrim v ≠ "" then _ else _) = _
      rw [if_neg hc]

/-- Witness for C4 at the spec's degenerate value `" , "`. -/
theorem C4_witness :
    Logchannel.initChannels (Except.ok (some " , ")) = ["default"] :=
  C4_default_fallback.2.2.2 " , " (by decide)

/-- Claim C5: whenever a call fires, it writes to its designated sink one
record whose first element is the prefix — `[CHANNEL]` for `log`,
`[CHANNEL:ERROR]` for `error`, `[CHANNEL:DEBUG]` for `debug`, the channel
upper-cased only inside the prefix — followed by the messages in order. -/
theorem C5_prefix_format {α : Type} (active : List String) (ch : String)
    (ms : List α) (h1 : ms ≠ []) (h2 : ch ∈ active) :
    Logchannel.log active ch ms =
      some ⟨Sink.out, "[" ++ jsToUpperCase ch ++ "]", ms⟩ ∧
    Logchannel.error active ch ms =
      some ⟨Sink.err, "[" ++ jsToUpperCase ch ++ ":ERROR]", ms⟩ ∧
    Logchannel.debug active ch ms =
      some ⟨Sink.dbg, "[" ++ jsToUpperCase ch ++ ":DEBUG]", ms⟩ := by
  have hcond : 0 < ms.length ∧ active.contains ch = true :=
    ⟨List.length_pos.mpr h1, List.elem_iff.mpr h2⟩
  have hpfx : ∀ t : LogType,
      Logchannel.eventPfx ch (some t) =
        "[" ++ jsToUpperCase ch ++ (":" ++ t.str ++ "]") := by
    intro t
    show "[" ++ jsToUpperCase ch ++ ":" ++ t.str ++ "]" = _
    rw [String.append_assoc ("[" ++ jsToUpperCase ch) ":" t.str,
      String.append_assoc ("[" ++ jsToUpperCase ch) (":" ++ t.str) "]"]
  refine ⟨?_, ?_, ?_⟩
  · show (if 0 < ms.length ∧ active.contains ch then _ else _) = _
    rw [if_pos hcond]
    rfl
  · show (if 0 < ms.length ∧ active.contains ch then _ else _) = _
    rw [if_pos hcond, hpfx LogType.ERROR]
    rfl
  · show (if 0 < ms.length ∧ active.contains ch then _ else _) = _
    rw [if_pos hcond, hpfx LogType.DEBUG]
    rfl

/-- Witness for C5: with `"net"` active, the three severities emit
`[NET]`, `[NET:ERROR]` and `[NET:DEBUG]` on their sinks. -/
theorem C5_witness :
    Logchannel.log ["net"] "net" ([0] : List Nat) =
      some ⟨Sink.out, "[NET]", [0]⟩ ∧
    Logchannel.error ["net"] "net" ([0] : List Nat) =
      some ⟨Sink.err, "[NET:ERROR]", [0]⟩ ∧
    Logchannel.debug ["net"] "net" ([0] : List Nat) =
      some ⟨Sink.dbg, "[NET:DEBUG]", [0]⟩ := by
  obtain ⟨hl, he, hd⟩ := C5_prefix_format ["net"] "net" ([0] : List Nat)
    (by decide) (by decide)
  exact ⟨hl.trans (by decide), he.trans (by decide), hd.trans (by decide)⟩

/-- Claim C6: in every state reachable through initialisation and `setChannel`
calls, every element of the active set equals its own trimmed form and is
non-empty; and no operation other than `setChannel` changes the state. -/
theorem C6_invariant :
    (∀ s : List String, Reachable s → ∀ c ∈ s, jsTrim c = c ∧ c ≠ "") ∧
    (∀ {α : Type} (s : List String) (c : Call α),
      (∀ arg, c ≠ Call.setChannel arg) → (Logchannel.step s c).1 = s) := by
  refine ⟨fun s h => reachable_invariant h, ?_⟩
  intro α s c hc
  cases c with
  | setChannel arg => exact absurd rfl (hc arg)
  | log ch ms => rfl
  | error ch ms => rfl
  | debug ch ms => rfl
  | getActive => rfl

/-- Witness for C6 at the default initial state. -/
theorem C6_witness : jsTrim "default" = "default" ∧ "default" ≠ "" :=
  C6_invariant.1 ["default"] (Reachable.init (Except.ok none)) "default"
    (List.mem_singleton.mpr rfl)

/-- Claim C7: `getActiveChannels` allocates a fresh array (a reference
distinct from the internal one) holding exactly the internal contents;
writing any value through the returned reference leaves the internal array
unchanged, and a subsequent `getActiveChannels` still copies the original
contents. -/
theorem C7_defensive_copy (st : GateState) (v : List String)
    (h : st.activeRef < st.heap.next) :
    (Logchannel.getActiveChannelsH st).2 ≠ st.activeRef ∧
    (Logchannel.getActiveChannelsH st).1.activeRef = st.activeRef ∧
    (Logchannel.getActiveChannelsH st).1.heap.read
      (Logchannel.getActiveChannelsH st).2 = st.heap.read st.activeRef ∧
    ((Logchannel.getActiveChannelsH st).1.heap.write
        (Logchannel.getActiveChannelsH st).2 v).read st.activeRef =
      st.heap.read st.activeRef ∧
    (Logchannel.getActiveChannelsH
        ⟨(Logchannel.getActiveChannelsH st).1.heap.write
          (Logchannel.getActiveChannelsH st).2 v, st.activeRef⟩).1.heap.read
      (Logchannel.getActiveChannelsH
        ⟨(Logchannel.getActiveChannelsH st).1.heap.write
          (Logchannel.getActiveChannelsH st).2 v, st.activeRef⟩).2 =
      st.heap.read st.activeRef := by
  have hne : st.heap.next ≠ st.activeRef := (Nat.ne_of_lt h).symm
  refine ⟨hne, rfl, ?_, ?_, ?_⟩
  · show (if st.heap.next = st.heap.next then _ else _) = _
    rw [if_pos rfl]
  · show (if st.activeRef = st.heap.next then _ else
        if st.activeRef = st.heap.next then _ else st.heap.cells st.activeRef) = _
    rw [if_neg (Nat.ne_of_lt h), if_neg (Nat.ne_of_lt h)]
    rfl
  · show (if st.heap.next + 1 = st.heap.next + 1 then
        (if st.activeRef = st.heap.next then _ else
          if st.activeRef = st.heap.next then _ else st.heap.cells st.activeRef)
        else _) = _
    rw [if_pos rfl, if_neg (Nat.ne_of_lt h), if_neg (Nat.ne_of_lt h)]
    rfl

/-- Witness for C7 on a one-cell heap holding `["a"]`, mutated to `["b"]`. -/
theorem C7_witness :
    (Logchannel.getActiveChannelsH
        ⟨⟨fun i => if i = 0 then ["a"] else [], 1⟩, 0⟩).1.heap.read
      (Logchannel.getActiveChannelsH
        ⟨⟨fun i => if i = 0 then ["a"] else [], 1⟩, 0⟩).2 =
      Heap.read (⟨fun i => if i = 0 then ["a"] else [], 1⟩ : Heap) 0 :=
  (C7_defensive_copy ⟨⟨fun i => if i = 0 then ["a"] else [], 1⟩, 0⟩ ["b"]
    (by decide)).2.2.1

/-- Claim C8: `log`, `error`, `debug` and `getActiveChannels` never change the
active set — the state after each such call equals the state before it. -/
theorem C8_frame {α : Type} (s : List String) (ch : String) (ms : List α) :
    (Logchannel.step s (Call.log ch ms)).1 = s ∧
    (Logchannel.step s (Call.error ch ms)).1 = s ∧
    (Logchannel.step s (Call.debug ch ms)).1 = s ∧
    (Logchannel.step s (Call.getActive : Call α)).1 = s :=
  ⟨rfl, rfl, rfl, rfl⟩

/-- Claim C9: in every reachable state the empty string is never an active
channel, so `log`, `error` and `debug` on channel `""` emit nothing whatever
the messages are. -/
theorem C9_empty_channel {α : Type} (s : List String) (h : Reachable s)
    (ms : List α) :
    "" ∉ s ∧
    Logchannel.log s "" ms = none ∧
    Logchannel.error s "" ms = none ∧
    Logchannel.debug s "" ms = none := by
  have hnot : "" ∉ s := fun hmem => (reachable_invariant h "" hmem).2 rfl
  have hno : ∀ (sink : Sink) (lt : Option LogType),
      Logchannel._processLogEvent s sink "" ms lt = none := by
    intro sink lt
    show (if 0 < ms.length ∧ s.contains "" then _ else _) = _
    rw [if_neg (fun hcontra => hnot (List.elem_iff.mp hcontra.2))]
  exact ⟨hnot, hno _ _, hno _ _, hno _ _⟩

/-- Witness for C9 at the default initial state with one message. -/
theorem C9_witness :
    "" ∉ (["default"] : List String) ∧
    Logchannel.log ["default"] "" ([0] : List Nat) = none ∧
    Logchannel.error ["default"] "" ([0] : List Nat) = none ∧
    Logchannel.debug ["default"] "" ([0] : List Nat) = none :=
  C9_empty_channel ["default"] (Reachable.init (Except.ok none)) [0]

/-- Claim C10: the implementations in src/logchannel.ts and
src/unnamed/part_000 are behaviourally equivalent — from any environment
value and over any call sequence they go through the same states and produce
the same observable outcomes. -/
theorem C10_equivalence {α : Type} (envRead : EnvRead) (calls : List (Call α)) :
    Logchannel.run envRead calls = Part000.run envRead calls := by
  have hstep : ∀ (s : List String) (c : Call α),
      Logchannel.step s c = Part000.step s c := by
    intro s c
    cases c <;> rfl
  have hrunFrom : ∀ (cs : List (Call α)) (s : List String),
      Logchannel.runFrom s cs = Part000.runFrom s cs := by
    intro cs
    induction cs with
    | nil => intro s; rfl
    | cons c rest ih =>
      intro s
      show ((Logchannel.runFrom (Logchannel.step s c).1 rest).1,
          (Logchannel.step s c).2 ::
            (Logchannel.runFrom (Logchannel.step s c).1 rest).2) = _
      rw [hstep, ih]
      rfl
  show Logchannel.runFrom (Logchannel.initChannels envRead) calls = _
  rw [hrunFrom]
  rfl
